import Mathlib

/-!
Verification of the Intelligent-document-analyzer core against its
specification.  The Python sources (src/text_analyzer.py, src/ai_processor.py,
src/document_reader.py) are shallowly embedded: Python strings become
List Char (ASCII fragment of the regex classes), machine floats become the
rationals, Python exceptions become an explicit Except result, and every call
into an external library (NLTK tokenizers, TextBlob, transformers pipelines,
PyPDF2, python-docx, the filesystem) is a parameter of the embedding, so that
theorems quantify over every possible behaviour of those libraries.
-/

/-- Python exception values, tagged by the exception type the source code
raises or catches; the payload is str(e). -/
inductive PyExc where
  | importError (msg : List Char)
  | lookupError (msg : List Char)
  | valueError (msg : List Char)
  | fileNotFoundError (msg : List Char)
  | unicodeDecodeError (msg : List Char)
  | genericError (msg : List Char)
deriving DecidableEq, Repr

/-- str(e): the message carried by an exception. -/
def excMsg : PyExc → List Char
  | .importError m => m
  | .lookupError m => m
  | .valueError m => m
  | .fileNotFoundError m => m
  | .unicodeDecodeError m => m
  | .genericError m => m

/-- The Python type of an exception, as a tag: the claims distinguish
failures by exception type, not by message. -/
def excTag : PyExc → Nat
  | .importError _ => 0
  | .lookupError _ => 1
  | .valueError _ => 2
  | .fileNotFoundError _ => 3
  | .unicodeDecodeError _ => 4
  | .genericError _ => 5

/-- Whether an embedded Python call returned normally. -/
def isOkE {α : Type} : Except PyExc α → Bool
  | .ok _ => true
  | .error _ => false

/-- Python regex \s on the ASCII range: the whitespace characters. -/
def isWS (c : Char) : Bool :=
  c == ' ' || c == '\t' || c == '\n' || c == '\r' || c == '\x0b' || c == '\x0c'

/-- Python regex \w on the ASCII range: letters, digits, underscore. -/
def isWordChar (c : Char) : Bool :=
  c.isAlphanum || c == '_'

/-- Negation of the whitespace class (the token characters of str.split()). -/
def noWS (c : Char) : Bool := !isWS c

/-- The character class kept by clean_text: [^\w\s.,!?;:] is removed. -/
def allowedChar (c : Char) : Bool :=
  isWordChar c || isWS c || c == '.' || c == ',' || c == '!' || c == '?' || c == ';' || c == ':'

/-- re.sub(r'\s+', ' ', text): the worker, with a flag recording whether the
previous character was whitespace (so a run contributes one space). -/
def collapseGo : Bool → List Char → List Char
  | _, [] => []
  | prevWS, c :: cs =>
      if isWS c then
        (if prevWS then collapseGo true cs else ' ' :: collapseGo true cs)
      else c :: collapseGo false cs

/-- re.sub(r'\s+', ' ', text): collapse every whitespace run to one space. -/
def collapse (l : List Char) : List Char := collapseGo false l

/-- Python str.strip() (ASCII whitespace model). -/
def pyStrip (l : List Char) : List Char :=
  ((l.dropWhile isWS).reverse.dropWhile isWS).reverse

/-- Python str.split() with no separator: maximal non-whitespace runs,
empty fragments dropped.  Structural recursion so that concrete inputs
evaluate by rfl. -/
def splitWs : List Char → List (List Char)
  | [] => []
  | [c] => if isWS c then [] else [[c]]
  | c :: d :: cs =>
      if isWS c then splitWs (d :: cs)
      else
        match splitWs (d :: cs), isWS d with
        | ts, true => [c] :: ts
        | [], false => [[c]]
        | t :: ts, false => (c :: t) :: ts

/-- Python text.split('.'): split at every dot, keeping empty fragments. -/
def splitOnDot : List Char → List (List Char)
  | [] => [[]]
  | c :: cs =>
      if c == '.' then [] :: splitOnDot cs
      else
        match splitOnDot cs with
        | [] => [[c]]
        | t :: ts => (c :: t) :: ts

/-- Bool test that the first argument is a leading segment of the second. -/
def prefixChk : List Char → List Char → Bool
  | [], _ => true
  | _ :: _, [] => false
  | a :: as, b :: bs => a == b && prefixChk as bs

/-- Python (sub in s) for strings: contiguous-substring test. -/
def infixChk : List Char → List Char → Bool
  | needle, [] => needle.isEmpty
  | needle, h :: t => prefixChk needle (h :: t) || infixChk needle t

/-- Python string.punctuation. -/
def pyPunctuation : List Char :=
  "!\"#$%&\x27()*+,-./:;<=>?@[\\]^_\x60\x7b|\x7d~".data

/-- TextAnalyzer.clean_text: collapse whitespace runs, drop characters outside
\w \s .,!?;: and strip the ends.  Order of the three passes follows the
source. -/
def clean_text (text : List Char) : List Char :=
  if text.isEmpty then [] else
  pyStrip ((collapse text).filter allowedChar)

/-- TextAnalyzer._simple_tokenize: sentences by splitting on '.', words by
whitespace splitting, both stripped with empty fragments dropped. -/
def simple_tokenize (text : List Char) : List (List Char) × List (List Char) :=
  (((splitOnDot text).map pyStrip).filter (fun s => !s.isEmpty),
   ((splitWs text).map pyStrip).filter (fun s => !s.isEmpty))

/-- The ambient NLTK state of the process: whether the import succeeded
(NLTK_AVAILABLE), the behaviour of the external tokenizers word_tokenize and
sent_tokenize (each may return a token list or raise), and the stop-word set
the analyzer loaded at construction (full corpus or the built-in fallback
list). -/
structure NltkEnv where
  available : Bool
  wordTok : List Char → Except PyExc (List (List Char))
  sentTok : List Char → Except PyExc (List (List Char))
  stopWords : List (List Char)

/-- The ambient TextBlob state: whether the import succeeded and the
polarity/subjectivity the external scorer produces (or the exception it
raises). -/
structure BlobEnv where
  available : Bool
  score : List Char → Except PyExc (ℚ × ℚ)

/-- The dict returned by TextAnalyzer.basic_statistics. -/
structure TextStats where
  word_count : Nat
  sentence_count : Nat
  character_count : Nat
  average_word_length : ℚ
  average_sentence_length : ℚ
deriving DecidableEq, Repr

/-- The tokenization step of basic_statistics: the NLTK tokenizers when
their module loaded and neither call raises, else _simple_tokenize; returns
(sentences, words). -/
def tokenizePair (env : NltkEnv) (cleaned : List Char) : List (List Char) × List (List Char) :=
  if env.available then
    match env.wordTok cleaned, env.sentTok cleaned with
    | .ok ws, .ok ss => (ss, ws)
    | .ok _, .error _ => simple_tokenize cleaned
    | .error _, _ => simple_tokenize cleaned
  else simple_tokenize cleaned

/-- The filter applied to the word list of basic_statistics:
word not in string.punctuation, i.e. the word is not a contiguous
substring of string.punctuation. -/
def passTok (w : List Char) : Bool := !infixChk w pyPunctuation

/-- TextAnalyzer.basic_statistics. -/
def basic_statistics (env : NltkEnv) (text : List Char) : TextStats :=
  if text.isEmpty then ⟨0, 0, 0, 0, 0⟩ else
  let cleaned := clean_text text
  let p := tokenizePair env cleaned
  let words := p.2.filter passTok
  let wc := words.length
  let sc := if p.1.isEmpty then 1 else p.1.length
  { word_count := wc
    sentence_count := sc
    character_count := cleaned.length
    average_word_length := if wc ≠ 0 then (((words.map List.length).sum : ℚ) / wc) else 0
    average_sentence_length := if sc ≠ 0 then ((wc : ℚ) / sc) else 0 }

/-- Number of occurrences of a word in a word list (one frequency-table entry). -/
def countOcc (w : List Char) (ws : List (List Char)) : Nat :=
  (ws.filter (fun x => x == w)).length

/-- The distinct elements of the input in first-occurrence order (the key
order of a Counter / FreqDist built from it). -/
def firstKeys : List (List Char) → List (List Char)
  | [] => []
  | w :: ws => w :: (firstKeys ws).filter (fun x => x ≠ w)

/-- Stable insertion keeping counts non-increasing: an element moves past
exactly the entries with a strictly smaller count. -/
def insertDesc (p : List Char × Nat) : List (List Char × Nat) → List (List Char × Nat)
  | [] => [p]
  | q :: qs => if p.2 ≤ q.2 then q :: insertDesc p qs else p :: q :: qs

/-- Stable sort by non-increasing count. -/
def sortDesc : List (List Char × Nat) → List (List Char × Nat)
  | [] => []
  | p :: ps => insertDesc p (sortDesc ps)

/-- Counter(words).most_common(n) (and FreqDist(words).most_common(n), which
is the same operation): (key, count) pairs sorted by count descending, ties
in first-insertion order, truncated to n entries. -/
def mostCommon (n : Nat) (ws : List (List Char)) : List (List Char × Nat) :=
  (sortDesc ((firstKeys ws).map (fun w => (w, countOcc w ws)))).take n

/-- The candidate words of keyword_extraction: lower-cased tokens of the
cleaned text with stop-words, punctuation substrings and short tokens
dropped.  Membership in stop_words is set membership; membership in
string.punctuation is Python substring membership. -/
def keywordCandidates (env : NltkEnv) (text : List Char) : List (List Char) :=
  let lowered := (clean_text text).map Char.toLower
  let words :=
    if env.available then
      match env.wordTok lowered with
      | .ok ws => ws
      | .error _ => splitWs lowered
    else splitWs lowered
  words.filter (fun w =>
    !env.stopWords.contains w && !infixChk w pyPunctuation && decide (w.length > 2))

/-- TextAnalyzer.keyword_extraction. -/
def keyword_extraction (env : NltkEnv) (text : List Char) (top_n : Nat) : List (List Char × Nat) :=
  if text.isEmpty then [] else
  let words := keywordCandidates env text
  if words.isEmpty then [] else
  mostCommon top_n words

/-- The dict returned by TextAnalyzer.sentiment_analysis. -/
structure SentimentResult where
  polarity : ℚ
  subjectivity : ℚ
  sentiment : List Char
deriving DecidableEq, Repr

/-- The neutral zero result. -/
def neutralSentiment : SentimentResult :=
  { polarity := 0, subjectivity := 0, sentiment := "neutral".data }

/-- TextAnalyzer.sentiment_analysis: delegate to TextBlob, fixed thresholds
0.1 / -0.1 for the label, neutral result when TextBlob is missing, the text
is empty, or the scorer raises. -/
def sentiment_analysis (env : BlobEnv) (text : List Char) : SentimentResult :=
  if !env.available || text.isEmpty then neutralSentiment else
  match env.score text with
  | .error _ => neutralSentiment
  | .ok (pol, subj) =>
      { polarity := pol
        subjectivity := subj
        sentiment :=
          if pol > 1/10 then "positive".data
          else if pol < -(1/10) then "negative".data
          else "neutral".data }

/-- vowels = "aeiouy". -/
def isVowel (c : Char) : Bool :=
  c == 'a' || c == 'e' || c == 'i' || c == 'o' || c == 'u' || c == 'y'

/-- The loop of _count_syllables: count positions where a vowel follows a
non-vowel (the flag holds whether the previous character was a vowel). -/
def vowelGroups : List Char → Bool → Nat
  | [], _ => 0
  | c :: cs, prev => (if isVowel c && !prev then 1 else 0) + vowelGroups cs (isVowel c)

/-- TextAnalyzer._count_syllables: vowel-group starts of the lower-cased
text, minus one for a trailing 'e', floored at 1 when the adjusted count is
zero. -/
def count_syllables (text : List Char) : Int :=
  if text.isEmpty then 0 else
  let t := text.map Char.toLower
  let c0 : Int := vowelGroups t false
  let c1 := if t.getLast? = some 'e' then c0 - 1 else c0
  if c1 = 0 then c1 + 1 else c1

/-- Python round(x) on an exact rational: round half to even. -/
def pyRound (q : ℚ) : Int :=
  let f := ⌊q⌋
  let r := q - f
  if r < 1/2 then f
  else if 1/2 < r then f + 1
  else if f % 2 = 0 then f else f + 1

/-- Python round(x, 2) on an exact rational. -/
def pyRound2 (q : ℚ) : ℚ :=
  (pyRound (q * 100) : ℚ) / 100

/-- TextAnalyzer.readability_score: the Flesch Reading Ease formula over
basic_statistics and _count_syllables, clamped to [0, 100] and rounded to
two decimals; 0 for empty text or a zero word or sentence count. -/
def readability_score (env : NltkEnv) (text : List Char) : ℚ :=
  if text.isEmpty then 0 else
  let stats := basic_statistics env text
  if stats.sentence_count = 0 ∨ stats.word_count = 0 then 0 else
  let avgSentenceLength : ℚ := (stats.word_count : ℚ) / stats.sentence_count
  let syllables := count_syllables text
  let avgSyllablesPerWord : ℚ :=
    if stats.word_count ≠ 0 then ((syllables : ℚ) / stats.word_count) else 0
  let score : ℚ := 206835/1000 - (1015/1000 * avgSentenceLength) - (846/10 * avgSyllablesPerWord)
  pyRound2 (max 0 (min 100 score))

/-- A Python dict value appearing in the processor's answer records. -/
inductive PyVal where
  | str (s : List Char)
  | num (q : ℚ)
deriving DecidableEq, Repr

/-- First binding of a key in a dict literal, as the record's field lookup. -/
def lookupKey (k : List Char) : List (List Char × PyVal) → Option PyVal
  | [] => none
  | (k', v) :: rest => if k' == k then some v else lookupKey k rest

/-- The AIProcessor state: the two optional model handles set up once by
_setup_pipelines.  A present handle carries the external model's behaviour
(result or raised exception) as a function. -/
structure AIState where
  summarizer : Option (List Char → Nat → Nat → Except PyExc (List Char))
  qa_pipeline : Option (List Char → List Char → Except PyExc (List Char × ℚ))

/-- AIProcessor._setup_pipelines: both handles start at None; the summarizer
is assigned first, so a failure while loading the QA model leaves the
summarizer present; any failure ends the try block with the remaining
handles absent. -/
def setup_pipelines
    (loadSummarizer : Except PyExc (List Char → Nat → Nat → Except PyExc (List Char)))
    (loadQA : Except PyExc (List Char → List Char → Except PyExc (List Char × ℚ))) : AIState :=
  match loadSummarizer with
  | .error _ => { summarizer := none, qa_pipeline := none }
  | .ok s =>
      match loadQA with
      | .error _ => { summarizer := some s, qa_pipeline := none }
      | .ok q => { summarizer := some s, qa_pipeline := some q }

/-- The outcome of importing sent_tokenize from nltk.tokenize and calling it
on the text inside summarize_text: an ImportError when the NLTK import
fails, otherwise whatever the external tokenizer does. -/
def sentTokOutcome (env : NltkEnv) (text : List Char) : Except PyExc (List (List Char)) :=
  if env.available then env.sentTok text
  else .error (.importError "No module named nltk".data)

/-- AIProcessor.summarize_text.  With no summarizer model: first three
sentences when sent_tokenize yields more than three, else the first 200
characters plus "..."; only an ImportError from the tokenizer import is
caught (yielding the same truncation).  With a model: input truncated to
1024 characters, and any model failure degrades to a "Summary: ..."
truncation.  The state is returned unchanged alongside the result. -/
def summarize_text (st : AIState) (env : NltkEnv) (text : List Char)
    (maxLength minLength : Nat) : Except PyExc (List Char) × AIState :=
  match st.summarizer with
  | none =>
      (match sentTokOutcome env text with
       | .ok sentences =>
           .ok (if sentences.length > 3 then List.intercalate [' '] (sentences.take 3)
                else text.take 200 ++ "...".data)
       | .error (.importError _) => .ok (text.take 200 ++ "...".data)
       | .error e => .error e,
       st)
  | some model =>
      let t := if text.length > 1024 then text.take 1024 else text
      (match model t maxLength minLength with
       | .ok s => .ok s
       | .error _ => .ok ("Summary: ".data ++ t.take 200 ++ "...".data),
       st)

/-- AIProcessor.answer_question.  Note the error branch of the source returns
the key "score", not "confidence". -/
def answer_question (st : AIState) (context question : List Char) :
    Except PyExc (List (List Char × PyVal)) × AIState :=
  match st.qa_pipeline with
  | none =>
      (.ok [("answer".data,
             .str ("Question-answering requires additional AI models. Please install transformers: pip install transformers".data)),
            ("confidence".data, .num 0)],
       st)
  | some model =>
      (match model question context with
       | .ok (a, score) =>
           .ok [("answer".data, .str a),
                ("confidence".data, .num ((pyRound (score * 1000) : ℚ) / 1000))]
       | .error e =>
           .ok [("answer".data, .str ("Error: ".data ++ excMsg e)),
                ("score".data, .num 0)],
       st)

/-- The dict returned by AIProcessor.analyze_document. -/
structure DocAnalysis where
  basic_stats : TextStats
  keywords : List (List Char × Nat)
  sentiment : SentimentResult
  readability : ℚ
  summary : List Char

/-- AIProcessor.analyze_document: the four analyzer results plus a summary
(with the source's default lengths 150/30 and default top 10 keywords); a
raise inside summarize_text propagates. -/
def analyze_document (st : AIState) (nltk : NltkEnv) (blob : BlobEnv) (text : List Char) :
    Except PyExc DocAnalysis × AIState :=
  let stats := basic_statistics nltk text
  let kws := keyword_extraction nltk text 10
  let sent := sentiment_analysis blob text
  let readab := readability_score nltk text
  match (summarize_text st nltk text 150 30).1 with
  | .ok summ =>
      (.ok { basic_stats := stats, keywords := kws, sentiment := sent,
             readability := readab, summary := summ }, st)
  | .error e => (.error e, st)

/-- Metadata of an extracted document. -/
structure DocMeta where
  pages : Nat
  author : List Char
  title : List Char
  subject : List Char
deriving DecidableEq, Repr

/-- The dict returned by DocumentReader.read_document. -/
structure ExtractedDoc where
  text : List Char
  metadata : DocMeta
  file_path : List Char
deriving DecidableEq, Repr

/-- What PyPDF2 yields for an opened file: per-page extracted text and the
document-properties metadata with its defaults already applied. -/
structure PdfRaw where
  pages : List (List Char)
  author : List Char
  title : List Char
  subject : List Char

/-- What python-docx yields: paragraph texts, section count, core
properties. -/
structure DocxRaw where
  paragraphs : List (List Char)
  sections : Nat
  author : List Char
  title : List Char
  subject : List Char

/-- The ambient state of the document reader: which optional imports
succeeded at process start (PDF_AVAILABLE, DOCX_AVAILABLE), the filesystem,
and the behaviour of the external readers. -/
structure ReaderEnv where
  pdfAvailable : Bool
  docxAvailable : Bool
  fsExists : List Char → Bool
  pdfOpen : List Char → Except PyExc PdfRaw
  docxOpen : List Char → Except PyExc DocxRaw
  txtReadUtf8 : List Char → Except PyExc (List Char)
  txtReadLatin1 : List Char → Except PyExc (List Char)

/-- DocumentReader.supported_formats as built in __init__. -/
def supported_formats (env : ReaderEnv) : List (List Char) :=
  (if env.pdfAvailable then [".pdf".data] else []) ++
  (if env.docxAvailable then [".docx".data] else []) ++ [".txt".data]

/-- os.path.basename for POSIX paths. -/
def pyBasename (p : List Char) : List Char :=
  (p.reverse.takeWhile (fun c => c ≠ '/')).reverse

/-- The extension part of os.path.splitext on a basename: from the last dot,
provided a non-dot character comes before it. -/
def extOfBase (b : List Char) : List Char :=
  let rest := b.dropWhile (fun c => c == '.')
  if (rest.filter (fun c => c == '.')).isEmpty then [] else
  '.' :: (rest.reverse.takeWhile (fun c => c ≠ '.')).reverse

/-- os.path.splitext(file_path)[1].lower(). -/
def fileExtLower (p : List Char) : List Char :=
  (extOfBase (pyBasename p)).map Char.toLower

/-- Python repr of a list of strings, as interpolated into the unsupported
format message. -/
def pyListRepr (l : List (List Char)) : List Char :=
  '[' :: (List.intercalate ", ".data (l.map (fun s => '\x27' :: (s ++ ['\x27'])))) ++ [']']

/-- DocumentReader._read_pdf: pages joined by newline skipping empty pages,
metadata from the document properties; any failure of the underlying reader
is re-raised as a generic Exception wrapping the message. -/
def read_pdf (env : ReaderEnv) (file_path : List Char) : Except PyExc ExtractedDoc :=
  if !env.pdfAvailable then
    .error (.importError "PyPDF2 not available for PDF reading".data)
  else
    match env.pdfOpen file_path with
    | .error e => .error (.genericError ("Error reading PDF: ".data ++ excMsg e))
    | .ok raw =>
        let text := raw.pages.foldl (fun acc p => if p.isEmpty then acc else acc ++ p ++ ['\n']) []
        .ok { text := pyStrip text
              metadata := { pages := raw.pages.length, author := raw.author,
                            title := raw.title, subject := raw.subject }
              file_path := file_path }

/-- DocumentReader._read_docx: non-empty paragraphs joined by newline,
section count as the page count; failures wrapped like the PDF case. -/
def read_docx (env : ReaderEnv) (file_path : List Char) : Except PyExc ExtractedDoc :=
  if !env.docxAvailable then
    .error (.importError "python-docx not available for DOCX reading".data)
  else
    match env.docxOpen file_path with
    | .error e => .error (.genericError ("Error reading DOCX: ".data ++ excMsg e))
    | .ok raw =>
        let text := raw.paragraphs.foldl (fun acc p => if p.isEmpty then acc else acc ++ p ++ ['\n']) []
        .ok { text := pyStrip text
              metadata := { pages := raw.sections, author := raw.author,
                            title := raw.title, subject := raw.subject }
              file_path := file_path }

/-- DocumentReader._read_txt: UTF-8 read with a Latin-1 retry on a decode
error only; other failures propagate unwrapped. -/
def read_txt (env : ReaderEnv) (file_path : List Char) : Except PyExc ExtractedDoc :=
  let mkDoc := fun (t : List Char) =>
    ExtractedDoc.mk (pyStrip t)
      { pages := 1, author := [], title := pyBasename file_path, subject := [] } file_path
  match env.txtReadUtf8 file_path with
  | .ok t => .ok (mkDoc t)
  | .error (.unicodeDecodeError _) =>
      (match env.txtReadLatin1 file_path with
       | .ok t => .ok (mkDoc t)
       | .error e => .error e)
  | .error e => .error e

/-- DocumentReader.read_document: FileNotFoundError for a missing path, then
dispatch on the lower-cased extension; a recognized extension whose optional
dependency is unavailable falls through to the same ValueError as an
unrecognized extension. -/
def read_document (env : ReaderEnv) (file_path : List Char) : Except PyExc ExtractedDoc :=
  if !env.fsExists file_path then
    .error (.fileNotFoundError ("File not found: ".data ++ file_path))
  else
    let ext := fileExtLower file_path
    if ext = ".pdf".data ∧ env.pdfAvailable then read_pdf env file_path
    else if ext = ".docx".data ∧ env.docxAvailable then read_docx env file_path
    else if ext = ".txt".data then read_txt env file_path
    else .error (.valueError ("Unsupported format: ".data ++ ext ++
                  ". Available support: ".data ++ pyListRepr (supported_formats env)))

/-- DocumentReader.is_supported_format. -/
def is_supported_format (env : ReaderEnv) (file_path : List Char) : Bool :=
  (supported_formats env).contains (fileExtLower file_path)

/-- Whether the sentence-tokenizer step of the summarizer fallback ends in a
caught state: a normal return or an ImportError (the only exception type the
fallback catches). -/
def okOrImportErr : Except PyExc (List (List Char)) → Bool
  | .ok _ => true
  | .error (.importError _) => true
  | .error _ => false

/-- The word count of the fallback tokenization chain applied to a string:
whitespace tokens of the string that are not substrings of
string.punctuation.  This is the composition computed inside
basic_statistics when NLTK is unavailable. -/
def fcw (l : List Char) : Nat := ((splitWs l).filter passTok).length

/-- The built-in fallback stop-word list of TextAnalyzer._setup_nltk. -/
def fallbackStopWords : List (List Char) :=
  ["a".data, "an".data, "the".data, "and".data, "or".data, "but".data, "in".data,
   "on".data, "at".data, "to".data, "for".data, "of".data, "with".data]

/-- A process state in which neither NLTK nor any model is available: every
optional capability degraded, the stop-word set the built-in fallback. -/
def envFallback : NltkEnv :=
  { available := false, wordTok := fun _ => .ok [], sentTok := fun _ => .ok [],
    stopWords := fallbackStopWords }

/-- A process state in which NLTK imported but its tokenizers raise
LookupError (the behaviour of sent_tokenize / word_tokenize when the punkt
data is absent). -/
def envLookupFail : NltkEnv :=
  { available := true,
    wordTok := fun _ => .error (.lookupError "punkt not found".data),
    sentTok := fun _ => .error (.lookupError "punkt not found".data),
    stopWords := [] }

/-- A processor with neither optional model present. -/
def stNoModels : AIState := { summarizer := none, qa_pipeline := none }

/-- A processor whose QA pipeline is present but raises at inference time. -/
def stQaFails : AIState :=
  { summarizer := none,
    qa_pipeline := some (fun _ _ => .error (.genericError "model failure".data)) }

/-- A TextBlob-absent environment. -/
def blobOff : BlobEnv :=
  { available := false, score := fun _ => .error (.genericError []) }

/-- A reader environment with both optional format dependencies missing and
every path existing. -/
def envNoDeps : ReaderEnv :=
  { pdfAvailable := false, docxAvailable := false, fsExists := fun _ => true,
    pdfOpen := fun _ => .error (.genericError []),
    docxOpen := fun _ => .error (.genericError []),
    txtReadUtf8 := fun _ => .ok [], txtReadLatin1 := fun _ => .ok [] }

/-- A reader environment whose PDF dependency is present but whose reader
fails on every file, and in which no path exists for the not-found case. -/
def envPdfFails : ReaderEnv :=
  { pdfAvailable := true, docxAvailable := false, fsExists := fun p => p ≠ "gone.txt".data,
    pdfOpen := fun _ => .error (.genericError "corrupt file".data),
    docxOpen := fun _ => .error (.genericError []),
    txtReadUtf8 := fun _ => .ok [], txtReadLatin1 := fun _ => .ok [] }

/-- The trailing-strip half of str.strip(): pyStrip l = bstrip (l.dropWhile isWS). -/
def bstrip (l : List Char) : List Char := (l.reverse.dropWhile isWS).reverse

theorem dropWhileLenLe (p : Char → Bool) : ∀ l : List Char, (l.dropWhile p).length ≤ l.length := by
  intro l
  induction l with
  | nil => simp
  | cons c cs ih =>
      by_cases h : p c
      · simp only [List.dropWhile_cons, h, if_true]
        exact Nat.le_succ_of_le ih
      · simp [List.dropWhile_cons, h]

theorem allTakeWhile (p : Char → Bool) : ∀ l : List Char, (l.takeWhile p).all p = true := by
  intro l
  induction l with
  | nil => rfl
  | cons c cs ih => by_cases h : p c <;> simp [List.takeWhile_cons, h, ih]

theorem takeWhileAll {p : Char → Bool} : ∀ {l : List Char}, l.all p = true → l.takeWhile p = l := by
  intro l h
  induction l with
  | nil => rfl
  | cons c cs ih =>
      simp only [List.all_cons, Bool.and_eq_true] at h
      simp [List.takeWhile_cons, h.1, ih h.2]

theorem dropWhileAll {p : Char → Bool} : ∀ {l : List Char}, l.all p = true → l.dropWhile p = [] := by
  intro l h
  induction l with
  | nil => rfl
  | cons c cs ih =>
      simp only [List.all_cons, Bool.and_eq_true] at h
      simp [List.dropWhile_cons, h.1, ih h.2]

theorem dropWhileNone {p : Char → Bool} : ∀ {l : List Char}, l.all (fun c => !p c) = true → l.dropWhile p = l := by
  intro l h
  cases l with
  | nil => rfl
  | cons c cs =>
      simp only [List.all_cons, Bool.and_eq_true, Bool.not_eq_true'] at h
      simp [List.dropWhile_cons, h.1]

theorem takeWhileNone {p : Char → Bool} : ∀ {l : List Char}, l.all (fun c => !p c) = true → l.takeWhile p = [] := by
  intro l h
  cases l with
  | nil => rfl
  | cons c cs =>
      simp only [List.all_cons, Bool.and_eq_true, Bool.not_eq_true'] at h
      simp [List.takeWhile_cons, h.1]

theorem takeWhileAppendAll {p : Char → Bool} : ∀ {l : List Char}, l.all p = true →
    ∀ r, (l ++ r).takeWhile p = l ++ r.takeWhile p := by
  intro l h r
  induction l with
  | nil => rfl
  | cons c cs ih =>
      simp only [List.all_cons, Bool.and_eq_true] at h
      simp [List.takeWhile_cons, h.1, ih h.2]

theorem dropWhileAppendAll {p : Char → Bool} : ∀ {l : List Char}, l.all p = true →
    ∀ r, (l ++ r).dropWhile p = r.dropWhile p := by
  intro l h r
  induction l with
  | nil => rfl
  | cons c cs ih =>
      simp only [List.all_cons, Bool.and_eq_true] at h
      simp [List.dropWhile_cons, h.1, ih h.2]

theorem takeWhileAppendNotAll {p : Char → Bool} : ∀ {l : List Char}, l.all p = false →
    ∀ r, (l ++ r).takeWhile p = l.takeWhile p := by
  intro l h r
  induction l with
  | nil => simp at h
  | cons c cs ih =>
      by_cases hc : p c
      · simp only [List.all_cons, hc, Bool.true_and] at h
        simp [List.takeWhile_cons, hc, ih h]
      · simp [List.takeWhile_cons, hc]

theorem dropWhileAppendNotAll {p : Char → Bool} : ∀ {l : List Char}, l.all p = false →
    ∀ r, (l ++ r).dropWhile p = l.dropWhile p ++ r := by
  intro l h r
  induction l with
  | nil => simp at h
  | cons c cs ih =>
      by_cases hc : p c
      · simp only [List.all_cons, hc, Bool.true_and] at h
        simp [List.dropWhile_cons, hc, ih h]
      · simp [List.dropWhile_cons, hc]

theorem splitWsCons (c : Char) (cs : List Char) :
    splitWs (c :: cs) =
      if isWS c then splitWs cs
      else (c :: cs.takeWhile noWS) :: splitWs (cs.dropWhile noWS) := by
  induction cs generalizing c with
  | nil => by_cases h : isWS c <;> simp [splitWs, h]
  | cons d ds ih =>
      by_cases hc : isWS c
      · simp [splitWs, hc]
      · by_cases hd : isWS d
        · have hnd : noWS d = false := by simp [noWS, hd]
          simp [splitWs, hc, hd, List.takeWhile_cons, List.dropWhile_cons, hnd]
        · have hnd : noWS d = true := by simp [noWS, hd]
          have := ih d
          simp only [hd, if_neg, ite_false] at this
          simp [splitWs, hc, hd, this, List.takeWhile_cons, List.dropWhile_cons, hnd]

theorem splitWsAllWS : ∀ {l : List Char}, l.all isWS = true → splitWs l = [] := by
  intro l h
  induction l with
  | nil => rfl
  | cons c cs ih =>
      simp only [List.all_cons, Bool.and_eq_true] at h
      rw [splitWsCons, if_pos h.1, ih h.2]

theorem splitWsOneTok {l : List Char} (hne : l ≠ []) (h : l.all noWS = true) :
    splitWs l = [l] := by
  cases l with
  | nil => exact absurd rfl hne
  | cons c cs =>
      simp only [List.all_cons, Bool.and_eq_true] at h
      have hc : isWS c = false := by
        have := h.1
        simp only [noWS, Bool.not_eq_true'] at this
        exact this
      rw [splitWsCons, if_neg (by simp [hc]), takeWhileAll h.2, dropWhileAll h.2]
      rfl

theorem splitWsTokensAux : ∀ n : Nat, ∀ l : List Char, l.length ≤ n →
    ∀ t ∈ splitWs l, t ≠ [] ∧ t.all noWS = true := by
  intro n
  induction n with
  | zero =>
      intro l hl t ht
      have : l = [] := by
        cases l with
        | nil => rfl
        | cons c cs => simp at hl
      subst this
      simp [splitWs] at ht
  | succ n ih =>
      intro l hl t ht
      cases l with
      | nil => simp [splitWs] at ht
      | cons c cs =>
          rw [splitWsCons] at ht
          by_cases hc : isWS c
          · rw [if_pos hc] at ht
            exact ih cs (by simp at hl; omega) t ht
          · rw [if_neg hc] at ht
            rcases List.mem_cons.mp ht with h1 | h2
            · subst h1
              refine ⟨by simp, ?_⟩
              simp only [List.all_cons, Bool.and_eq_true]
              exact ⟨by simp [noWS, hc], allTakeWhile noWS cs⟩
            · refine ih (cs.dropWhile noWS) ?_ t h2
              have := dropWhileLenLe noWS cs
              simp at hl
              omega

theorem splitWsTokens (l : List Char) : ∀ t ∈ splitWs l, t ≠ [] ∧ t.all noWS = true :=
  splitWsTokensAux l.length l (Nat.le_refl _)

theorem pyStripNoWS {t : List Char} (h : t.all noWS = true) : pyStrip t = t := by
  have h1 : t.dropWhile isWS = t := dropWhileNone (by simpa [noWS] using h)
  have h2 : t.reverse.all noWS = true := by simpa [List.all_reverse] using h
  have h3 : t.reverse.dropWhile isWS = t.reverse := dropWhileNone (by simpa [noWS] using h2)
  simp [pyStrip, h1, h3]

theorem simpleWordsEq (l : List Char) :
    ((splitWs l).map pyStrip).filter (fun s => !s.isEmpty) = splitWs l := by
  have hmap : (splitWs l).map pyStrip = splitWs l := by
    have : ∀ t ∈ splitWs l, pyStrip t = t := fun t ht => pyStripNoWS (splitWsTokens l t ht).2
    calc (splitWs l).map pyStrip = (splitWs l).map id := List.map_congr_left this
    _ = splitWs l := List.map_id _
  rw [hmap]
  refine List.filter_eq_self.mpr ?_
  intro t ht
  have := (splitWsTokens l t ht).1
  simp [List.isEmpty_eq_false, this]

theorem prefixChkAppendLeft : ∀ (w e l : List Char), prefixChk (w ++ e) l = true → prefixChk w l = true := by
  intro w
  induction w with
  | nil => intro e l _; rfl
  | cons a as ih =>
      intro e l h
      cases l with
      | nil => simp [prefixChk] at h
      | cons b bs =>
          simp only [List.cons_append, prefixChk, Bool.and_eq_true] at h ⊢
          exact ⟨h.1, ih e bs h.2⟩

theorem infixChkMono : ∀ (p w e : List Char), infixChk (w ++ e) p = true → infixChk w p = true := by
  intro p
  induction p with
  | nil =>
      intro w e h
      simp only [infixChk, List.isEmpty_eq_true, List.append_eq_nil] at h ⊢
      exact h.1
  | cons h t ih =>
      intro w e hin
      simp only [infixChk, Bool.or_eq_true] at hin ⊢
      rcases hin with h1 | h2
      · exact Or.inl (prefixChkAppendLeft w e _ h1)
      · exact Or.inr (ih w e h2)

theorem passTokAppend {w : List Char} (e : List Char) (h : passTok w = true) :
    passTok (w ++ e) = true := by
  simp only [passTok, Bool.not_eq_true'] at h ⊢
  cases hwe : infixChk (w ++ e) pyPunctuation with
  | false => rfl
  | true => rw [infixChkMono pyPunctuation w e hwe] at h; exact h

theorem splitWsNil : splitWs [] = [] := rfl

theorem fcwNil : fcw [] = 0 := rfl

theorem fcwConsWS {c : Char} (hc : isWS c = true) (cs : List Char) : fcw (c :: cs) = fcw cs := by
  simp [fcw, splitWsCons, hc]

theorem fcwConsTok {c : Char} (hc : isWS c = false) (cs : List Char) :
    fcw (c :: cs) =
      (if passTok (c :: cs.takeWhile noWS) then 1 else 0) + fcw (cs.dropWhile noWS) := by
  simp only [fcw, splitWsCons, hc, Bool.false_eq_true, if_false, List.filter_cons]
  by_cases h : passTok (c :: cs.takeWhile noWS) <;> (simp [h]; try omega)

theorem fcwAppendMonoAux : ∀ n : Nat, ∀ x : List Char, x.length ≤ n →
    ∀ y, fcw x ≤ fcw (x ++ y) := by
  intro n
  induction n with
  | zero =>
      intro x hx y
      have : x = [] := by
        cases x with
        | nil => rfl
        | cons c cs => simp at hx
      subst this
      simp [fcwNil]
  | succ n ih =>
      intro x hx y
      cases x with
      | nil => simp [fcwNil]
      | cons c cs =>
          simp only [List.length_cons, Nat.succ_le_succ_iff] at hx
          by_cases hc : isWS c
          · rw [fcwConsWS hc, List.cons_append, fcwConsWS hc]
            exact ih cs hx y
          · have hc' : isWS c = false := by simp [hc]
            rw [fcwConsTok hc', List.cons_append, fcwConsTok hc']
            by_cases hall : cs.all noWS
            · rw [takeWhileAll hall, dropWhileAll hall,
                  takeWhileAppendAll hall, dropWhileAppendAll hall]
              have htok : ∀ b : Nat, (if passTok (c :: cs) then 1 else 0) ≤
                  (if passTok (c :: (cs ++ y.takeWhile noWS)) then 1 else 0) + b := by
                intro b
                by_cases hp : passTok (c :: cs)
                · have : passTok ((c :: cs) ++ y.takeWhile noWS) = true := passTokAppend _ hp
                  simp only [List.cons_append] at this
                  simp [hp, this]
                · simp [hp]
              calc (if passTok (c :: cs) then 1 else 0) + fcw []
                  = (if passTok (c :: cs) then 1 else 0) := by simp [fcwNil]
                _ ≤ (if passTok (c :: (cs ++ y.takeWhile noWS)) then 1 else 0) +
                      fcw (y.dropWhile noWS) := htok _
            · have hall' : cs.all noWS = false := by simpa using hall
              rw [takeWhileAppendNotAll hall', dropWhileAppendNotAll hall']
              have hlen : (cs.dropWhile noWS).length ≤ n :=
                Nat.le_trans (dropWhileLenLe noWS cs) hx
              exact Nat.add_le_add_left (ih (cs.dropWhile noWS) hlen y) _

theorem fcwAppendMono (x y : List Char) : fcw x ≤ fcw (x ++ y) :=
  fcwAppendMonoAux x.length x (Nat.le_refl _) y

theorem fcwAllNoWS {y : List Char} (hy : y.all noWS = true) : fcw y ≤ 1 := by
  cases hne : y with
  | nil => simp [fcwNil]
  | cons c cs =>
      subst hne
      rw [fcw, splitWsOneTok (by simp) hy]
      by_cases h : passTok (c :: cs) <;> simp [List.filter, h]

theorem fcwAppendNoWSAux : ∀ n : Nat, ∀ x : List Char, x.length ≤ n →
    ∀ y, y.all noWS = true → fcw (x ++ y) ≤ fcw x + 1 := by
  intro n
  induction n with
  | zero =>
      intro x hx y hy
      have : x = [] := by
        cases x with
        | nil => rfl
        | cons c cs => simp at hx
      subst this
      simpa [fcwNil] using fcwAllNoWS hy
  | succ n ih =>
      intro x hx y hy
      cases x with
      | nil => simpa [fcwNil] using fcwAllNoWS hy
      | cons c cs =>
          simp only [List.length_cons, Nat.succ_le_succ_iff] at hx
          by_cases hc : isWS c
          · rw [List.cons_append, fcwConsWS hc, fcwConsWS hc]
            exact ih cs hx y hy
          · have hc' : isWS c = false := by simp [hc]
            rw [List.cons_append, fcwConsTok hc', fcwConsTok hc']
            by_cases hall : cs.all noWS
            · rw [takeWhileAll hall, dropWhileAll hall,
                  takeWhileAppendAll hall, takeWhileAll hy, dropWhileAppendAll hall,
                  dropWhileAll hy]
              have : (if passTok (c :: (cs ++ y)) then 1 else 0) ≤ 1 := by
                by_cases h : passTok (c :: (cs ++ y)) <;> simp [h]
              calc (if passTok (c :: (cs ++ y)) then 1 else 0) + fcw []
                  ≤ 1 := by simpa [fcwNil] using this
                _ ≤ (if passTok (c :: cs) then 1 else 0) + fcw [] + 1 := by
                      simp [fcwNil]
            · have hall' : cs.all noWS = false := by simpa using hall
              rw [takeWhileAppendNotAll hall', dropWhileAppendNotAll hall']
              have hlen : (cs.dropWhile noWS).length ≤ n :=
                Nat.le_trans (dropWhileLenLe noWS cs) hx
              have := ih (cs.dropWhile noWS) hlen y hy
              omega

theorem fcwAppendNoWS (x : List Char) {y : List Char} (hy : y.all noWS = true) :
    fcw (x ++ y) ≤ fcw x + 1 :=
  fcwAppendNoWSAux x.length x (Nat.le_refl _) y hy

theorem fcwAppendAllWSAux : ∀ n : Nat, ∀ x : List Char, x.length ≤ n →
    ∀ w, w.all isWS = true → fcw (x ++ w) = fcw x := by
  intro n
  induction n with
  | zero =>
      intro x hx w hw
      have : x = [] := by
        cases x with
        | nil => rfl
        | cons c cs => simp at hx
      subst this
      simp [fcwNil, fcw, splitWsAllWS hw, splitWsNil]
  | succ n ih =>
      intro x hx w hw
      cases x with
      | nil => simp [fcwNil, fcw, splitWsAllWS hw, splitWsNil]
      | cons c cs =>
          simp only [List.length_cons, Nat.succ_le_succ_iff] at hx
          by_cases hc : isWS c
          · rw [List.cons_append, fcwConsWS hc, fcwConsWS hc]
            exact ih cs hx w hw
          · have hc' : isWS c = false := by simp [hc]
            rw [List.cons_append, fcwConsTok hc', fcwConsTok hc']
            have hwno : w.all (fun c => !noWS c) = true := by
              simp only [noWS, Bool.not_not]
              exact hw
            by_cases hall : cs.all noWS
            · rw [takeWhileAll hall, dropWhileAll hall,
                  takeWhileAppendAll hall, takeWhileNone hwno,
                  dropWhileAppendAll hall, dropWhileNone hwno]
              simp [fcwNil, fcw, splitWsAllWS hw, splitWsNil, List.append_nil]
            · have hall' : cs.all noWS = false := by simpa using hall
              rw [takeWhileAppendNotAll hall', dropWhileAppendNotAll hall']
              have hlen : (cs.dropWhile noWS).length ≤ n :=
                Nat.le_trans (dropWhileLenLe noWS cs) hx
              rw [ih (cs.dropWhile noWS) hlen w hw]

theorem fcwAppendAllWS (x : List Char) {w : List Char} (hw : w.all isWS = true) :
    fcw (x ++ w) = fcw x :=
  fcwAppendAllWSAux x.length x (Nat.le_refl _) w hw

theorem collapseGoAppend : ∀ (u : List Char) (b : Bool) (v : List Char),
    collapseGo b (u ++ v) = collapseGo b u ++ collapseGo (u.foldl (fun _ c => isWS c) b) v := by
  intro u
  induction u with
  | nil => intro b v; rfl
  | cons c cs ih =>
      intro b v
      by_cases hc : isWS c <;> cases b <;>
        simp [collapseGo, hc, List.foldl_cons, ih]

theorem collapseGoNoWS (b : Bool) : ∀ {v : List Char}, v.all noWS = true → collapseGo b v = v := by
  intro v h
  induction v generalizing b with
  | nil => rfl
  | cons c cs ih =>
      simp only [List.all_cons, Bool.and_eq_true] at h
      have hc : isWS c = false := by
        have := h.1
        simp only [noWS, Bool.not_eq_true'] at this
        exact this
      simp [collapseGo, hc, ih false h.2]

theorem bstripAppendDots (z : List Char) : bstrip (z ++ "...".data) = z ++ "...".data := by
  show bstrip (z ++ ['.', '.', '.']) = z ++ ['.', '.', '.']
  simp [bstrip, isWS, List.reverse_append, List.dropWhile_cons]

theorem bstripDecomp (x : List Char) : ∃ w, x = bstrip x ++ w ∧ w.all isWS = true := by
  refine ⟨(x.reverse.takeWhile isWS).reverse, ?_, ?_⟩
  · have h1 : x.reverse.takeWhile isWS ++ x.reverse.dropWhile isWS = x.reverse :=
      List.takeWhile_append_dropWhile isWS x.reverse
    have h2 : (x.reverse.takeWhile isWS ++ x.reverse.dropWhile isWS).reverse = x := by
      rw [h1, List.reverse_reverse]
    calc x = (x.reverse.takeWhile isWS ++ x.reverse.dropWhile isWS).reverse := h2.symm
      _ = bstrip x ++ (x.reverse.takeWhile isWS).reverse := by
            rw [List.reverse_append]; rfl
  · rw [List.all_reverse]
    exact allTakeWhile isWS x.reverse

theorem fcwBstrip (x : List Char) : fcw (bstrip x) = fcw x := by
  obtain ⟨w, hx, hw⟩ := bstripDecomp x
  conv_rhs => rw [hx]
  exact (fcwAppendAllWS (bstrip x) hw).symm

theorem cleanAppendDots (t : List Char) :
    clean_text (t ++ "...".data) =
      ((collapse t).filter allowedChar).dropWhile isWS ++ "...".data := by
  have hne : (t ++ "...".data).isEmpty = false := by
    rw [List.isEmpty_eq_false]
    simp
  have hcol : collapse (t ++ "...".data) = collapse t ++ "...".data := by
    show collapseGo false (t ++ "...".data) = collapse t ++ "...".data
    rw [collapseGoAppend t false "...".data,
        collapseGoNoWS (t.foldl (fun _ c => isWS c) false) (by decide)]
    rfl
  have hfil : (collapse t ++ "...".data).filter allowedChar =
      (collapse t).filter allowedChar ++ "...".data := by
    simp [List.filter_append, show "...".data.filter allowedChar = "...".data from rfl]
  have hdrop : ((collapse t).filter allowedChar ++ "...".data).dropWhile isWS =
      ((collapse t).filter allowedChar).dropWhile isWS ++ "...".data := by
    by_cases hall : ((collapse t).filter allowedChar).all isWS
    · rw [dropWhileAppendAll hall, dropWhileAll hall]
      decide
    · exact dropWhileAppendNotAll (by simpa using hall) _
  have h0 : clean_text (t ++ "...".data) =
      pyStrip ((collapse (t ++ "...".data)).filter allowedChar) := by
    simp [clean_text, hne]
  rw [h0, hcol, hfil]
  show bstrip (((collapse t).filter allowedChar ++ "...".data).dropWhile isWS) = _
  rw [hdrop, bstripAppendDots]

theorem fcwCleanPrefixTake (t : List Char) (ht : t ≠ []) :
    fcw (((collapse (t.take 200)).filter allowedChar).dropWhile isWS) ≤ fcw (clean_text t) := by
  have htt : t.isEmpty = false := by simp [List.isEmpty_eq_false, ht]
  have hct : clean_text t = bstrip (((collapse t).filter allowedChar).dropWhile isWS) := by
    have h : clean_text t = pyStrip ((collapse t).filter allowedChar) := by
      simp [clean_text, htt]
    rw [h]; rfl
  rw [hct, fcwBstrip]
  have hsplit : collapse t = collapse (t.take 200) ++
      collapseGo ((t.take 200).foldl (fun _ c => isWS c) false) (t.drop 200) := by
    conv_lhs => rw [show t = t.take 200 ++ t.drop 200 from (List.take_append_drop 200 t).symm]
    exact collapseGoAppend (t.take 200) false (t.drop 200)
  rw [hsplit, List.filter_append]
  by_cases hall : ((collapse (t.take 200)).filter allowedChar).all isWS
  · rw [dropWhileAll hall]
    exact Nat.zero_le _
  · rw [dropWhileAppendNotAll (by simpa using hall)]
    exact fcwAppendMono _ _

theorem fcwCleanTakeDots (t : List Char) :
    fcw (clean_text (t.take 200 ++ "...".data)) ≤ fcw (clean_text t) + 1 := by
  by_cases ht : t = []
  · subst ht; decide
  · rw [cleanAppendDots (t.take 200)]
    have h1 : fcw (((collapse (t.take 200)).filter allowedChar).dropWhile isWS ++ "...".data) ≤
        fcw (((collapse (t.take 200)).filter allowedChar).dropWhile isWS) + 1 :=
      fcwAppendNoWS _ (by decide)
    have h2 := fcwCleanPrefixTake t ht
    omega

theorem wordCountFallback (env : NltkEnv) (h1 : env.available = false)
    (text : List Char) (ht : text ≠ []) :
    (basic_statistics env text).word_count = fcw (clean_text text) := by
  have htt : text.isEmpty = false := by simp [List.isEmpty_eq_false, ht]
  simp only [basic_statistics, htt, Bool.false_eq_true, if_false, tokenizePair, h1,
    simple_tokenize]
  simp [fcw, simpleWordsEq]

theorem summarizeFallbackEq (st : AIState) (env : NltkEnv) (text : List Char)
    (maxL minL : Nat) (h1 : env.available = false) (h2 : st.summarizer = none) :
    (summarize_text st env text maxL minL).1 = .ok (text.take 200 ++ "...".data) := by
  simp [summarize_text, h2, sentTokOutcome, h1]

theorem pyRoundNonneg {q : ℚ} (h : 0 ≤ q) : 0 ≤ pyRound q := by
  have hf : (0 : ℤ) ≤ ⌊q⌋ := Int.le_floor.mpr (by exact_mod_cast h)
  unfold pyRound
  dsimp only
  split_ifs <;> omega

theorem pyRoundLe {q : ℚ} {N : ℤ} (h : q ≤ (N : ℚ)) : pyRound q ≤ N := by
  have hfl : ⌊q⌋ ≤ N := by
    have h1 : ⌊q⌋ ≤ ⌊(N : ℚ)⌋ := Int.floor_le_floor h
    simpa using h1
  have hq : (⌊q⌋ : ℚ) ≤ q := Int.floor_le q
  unfold pyRound
  dsimp only
  split_ifs with h1 h2 h3
  · exact hfl
  · rcases lt_or_eq_of_le hfl with hlt | heq
    · omega
    · exfalso
      have hcast : ((⌊q⌋ : ℤ) : ℚ) = ((N : ℤ) : ℚ) := by exact_mod_cast congrArg Int.cast heq
      linarith
  · exact hfl
  · rcases lt_or_eq_of_le hfl with hlt | heq
    · omega
    · exfalso
      have hcast : ((⌊q⌋ : ℤ) : ℚ) = ((N : ℤ) : ℚ) := by exact_mod_cast congrArg Int.cast heq
      have hr : q - ⌊q⌋ = 1/2 := le_antisymm (not_lt.mp h2) (not_lt.mp h1)
      linarith

theorem pyRound2Bounds {q : ℚ} (h0 : 0 ≤ q) (h1 : q ≤ 100) :
    0 ≤ pyRound2 q ∧ pyRound2 q ≤ 100 := by
  have hr0 : 0 ≤ pyRound (q * 100) := pyRoundNonneg (by positivity)
  have hr1 : pyRound (q * 100) ≤ (10000 : ℤ) := pyRoundLe (by push_cast; linarith)
  constructor
  · exact div_nonneg (by exact_mod_cast hr0) (by norm_num)
  · unfold pyRound2
    rw [div_le_iff₀ (by norm_num : (0 : ℚ) < 100)]
    calc ((pyRound (q * 100) : ℤ) : ℚ) ≤ ((10000 : ℤ) : ℚ) := by exact_mod_cast hr1
      _ = 100 * 100 := by norm_num

theorem memInsertDesc {p x : List Char × Nat} : ∀ {l : List (List Char × Nat)},
    x ∈ insertDesc p l → x = p ∨ x ∈ l := by
  intro l h
  induction l with
  | nil =>
      simp only [insertDesc, List.mem_singleton] at h
      exact Or.inl h
  | cons q qs ih =>
      simp only [insertDesc] at h
      by_cases hpq : p.2 ≤ q.2
      · rw [if_pos hpq] at h
        rcases List.mem_cons.mp h with h1 | h2
        · exact Or.inr (h1 ▸ List.mem_cons_self q qs)
        · rcases ih h2 with h3 | h4
          · exact Or.inl h3
          · exact Or.inr (List.mem_cons_of_mem q h4)
      · rw [if_neg hpq] at h
        rcases List.mem_cons.mp h with h1 | h2
        · exact Or.inl h1
        · exact Or.inr h2

theorem insertDescSorted {p : List Char × Nat} : ∀ {l : List (List Char × Nat)},
    l.Pairwise (fun a b => b.2 ≤ a.2) →
    (insertDesc p l).Pairwise (fun a b => b.2 ≤ a.2) := by
  intro l hl
  induction l with
  | nil => simp [insertDesc]
  | cons q qs ih =>
      rcases List.pairwise_cons.mp hl with ⟨hq, hqs⟩
      by_cases hpq : p.2 ≤ q.2
      · simp only [insertDesc, if_pos hpq]
        refine List.pairwise_cons.mpr ⟨?_, ih hqs⟩
        intro x hx
        rcases memInsertDesc hx with h1 | h2
        · rw [h1]; exact hpq
        · exact hq x h2
      · simp only [insertDesc, if_neg hpq]
        refine List.pairwise_cons.mpr ⟨?_, hl⟩
        intro x hx
        rcases List.mem_cons.mp hx with h1 | h2
        · rw [h1]; omega
        · have := hq x h2; omega

theorem sortDescSorted : ∀ l : List (List Char × Nat),
    (sortDesc l).Pairwise (fun a b => b.2 ≤ a.2) := by
  intro l
  induction l with
  | nil => simp [sortDesc]
  | cons p ps ih => exact insertDescSorted ih

theorem collapseLenLe : ∀ (l : List Char) (b : Bool), (collapseGo b l).length ≤ l.length := by
  intro l
  induction l with
  | nil => intro b; simp [collapseGo]
  | cons c cs ih =>
      intro b
      have h1 := ih true
      have h2 := ih false
      by_cases hc : isWS c <;> cases b <;> simp only [collapseGo, hc, if_true, if_false,
        Bool.false_eq_true, Bool.true_eq_false, List.length_cons] <;> omega

theorem pyStripLenLe (l : List Char) : (pyStrip l).length ≤ l.length := by
  unfold pyStrip
  have h1 := dropWhileLenLe isWS l
  have h2 := dropWhileLenLe isWS (l.dropWhile isWS).reverse
  simp only [List.length_reverse] at h2 ⊢
  omega

theorem cleanLenLe (text : List Char) : (clean_text text).length ≤ text.length := by
  unfold clean_text
  split_ifs with h
  · simp
  · calc (pyStrip ((collapse text).filter allowedChar)).length
        ≤ ((collapse text).filter allowedChar).length := pyStripLenLe _
      _ ≤ (collapse text).length := List.length_filter_le _ _
      _ ≤ text.length := collapseLenLe text false

theorem summarizeIsOk (st : AIState) (env : NltkEnv) (text : List Char) (maxL minL : Nat) :
    isOkE (summarize_text st env text maxL minL).1 =
      (st.summarizer.isSome || okOrImportErr (sentTokOutcome env text)) := by
  obtain ⟨os, oq⟩ := st
  cases os with
  | none =>
      cases hst : sentTokOutcome env text with
      | ok ss => simp [summarize_text, isOkE, hst, okOrImportErr]
      | error e => cases e <;> simp [summarize_text, isOkE, hst, okOrImportErr]
  | some f =>
      cases hm : f (if text.length > 1024 then text.take 1024 else text) maxL minL <;>
        simp [summarize_text, isOkE, hm]

/-- C9: each of the processor's two optional model handles is an Option fixed
at construction by _setup_pipelines, and none of summarize_text,
answer_question, analyze_document changes either handle: every operation
returns the state it received. -/
theorem model_handles_never_mutated (st : AIState) (nltk : NltkEnv) (blob : BlobEnv)
    (text c q : List Char) (a b : Nat) :
    (summarize_text st nltk text a b).2 = st ∧
    (answer_question st c q).2 = st ∧
    (analyze_document st nltk blob text).2 = st := by
  obtain ⟨os, oq⟩ := st
  refine ⟨?_, ?_, ?_⟩
  · cases os <;> rfl
  · cases oq <;> rfl
  · unfold analyze_document
    cases (summarize_text ⟨os, oq⟩ nltk text 150 30).1 <;> rfl

/-- C1 (code bug evidence): when the QA pipeline is present and raises at
inference time, answer_question returns a dict whose keys are "answer" and
"score" — there is no "confidence" field, contradicting the documented
{answer, confidence} shape that the success and absent branches (and the GUI
callers) use. -/
theorem answer_question_error_branch_score_key :
    (answer_question stQaFails "ctx".data "What?".data).1 =
      .ok [("answer".data, PyVal.str "Error: model failure".data),
           ("score".data, PyVal.num 0)] ∧
    lookupKey "confidence".data
      [("answer".data, PyVal.str "Error: model failure".data),
       ("score".data, PyVal.num 0)] = none ∧
    lookupKey "score".data
      [("answer".data, PyVal.str "Error: model failure".data),
       ("score".data, PyVal.num 0)] = some (PyVal.num 0) ∧
    (answer_question stNoModels "ctx".data "What?".data).1 =
      .ok [("answer".data,
            PyVal.str "Question-answering requires additional AI models. Please install transformers: pip install transformers".data),
           ("confidence".data, PyVal.num 0)] := by
  exact ⟨rfl, rfl, rfl, rfl⟩

/-- C4 counterexample: with no summarizer model and a text of one sentence
and at most 200 characters, summarize_text does not return the text
unchanged: it returns the text with "..." appended. -/
theorem summarize_short_text_not_identity :
    (summarize_text stNoModels envFallback "Hi.".data 150 30).1 = .ok "Hi....".data ∧
    "Hi....".data ≠ "Hi.".data := by
  exact ⟨rfl, by decide⟩

/-- C4 amended: with no summarizer model, whenever the sentence-tokenizer
step yields at most three sentences or fails with an ImportError, summarize
returns the first 200 characters of the text followed by "..." — a
never-empty string (but not the unmodified text). -/
theorem summarize_fallback_truncation (st : AIState) (env : NltkEnv) (text : List Char)
    (maxL minL : Nat) (h2 : st.summarizer = none)
    (hle : ∀ ss, sentTokOutcome env text = .ok ss → ss.length ≤ 3)
    (hok : okOrImportErr (sentTokOutcome env text) = true) :
    (summarize_text st env text maxL minL).1 = .ok (text.take 200 ++ "...".data) ∧
    text.take 200 ++ "...".data ≠ [] := by
  constructor
  · cases hst : sentTokOutcome env text with
    | ok ss =>
        have hlen := hle ss hst
        have hgt : ¬ss.length > 3 := by omega
        simp [summarize_text, h2, hst, hgt]
    | error e =>
        cases e <;> simp_all [summarize_text, h2, okOrImportErr]
  · simp

/-- C4 amended, witnessed at a concrete input: summarize of "Hi." in the
fully degraded environment. -/
theorem summarize_fallback_truncation_witness :
    (summarize_text stNoModels envFallback "Hi.".data 150 30).1 =
      .ok ("Hi.".data.take 200 ++ "...".data) ∧
    "Hi.".data.take 200 ++ "...".data ≠ [] := by
  refine summarize_fallback_truncation stNoModels envFallback "Hi.".data 150 30 rfl ?_ rfl
  intro ss h
  simp [sentTokOutcome, envFallback] at h

/-- C3 counterexample: with NLTK present but its sentence tokenizer raising
LookupError (missing punkt data) and no summarizer model, summarize_text and
analyze_document both propagate the LookupError instead of degrading. -/
theorem analysis_pipeline_raises_counterexample :
    (summarize_text stNoModels envLookupFail "Hello world. Fine.".data 150 30).1 =
      .error (.lookupError "punkt not found".data) ∧
    (analyze_document stNoModels envLookupFail blobOff "Hello world. Fine.".data).1 =
      .error (.lookupError "punkt not found".data) := by
  exact ⟨rfl, rfl⟩

/-- C3 amended: the analyzer operations are total functions of the input and
of the tokenizer/scorer outcomes (they catch every failure internally, which
is why they are embedded without an exception channel); answer_question
always returns normally; summarize_text and analyze_document return normally
exactly when a summarizer model is present or the sentence-tokenizer step
either succeeds or fails with the one caught exception type, ImportError —
any other tokenizer failure (e.g. LookupError) escapes. -/
theorem analysis_stage_totality (st : AIState) (env : NltkEnv) (blob : BlobEnv)
    (text c q : List Char) (maxL minL : Nat) :
    isOkE (summarize_text st env text maxL minL).1 =
      (st.summarizer.isSome || okOrImportErr (sentTokOutcome env text)) ∧
    isOkE (analyze_document st env blob text).1 =
      (st.summarizer.isSome || okOrImportErr (sentTokOutcome env text)) ∧
    isOkE (answer_question st c q).1 = true := by
  refine ⟨summarizeIsOk st env text maxL minL, ?_, ?_⟩
  · have h := summarizeIsOk st env text 150 30
    cases hsum : (summarize_text st env text 150 30).1 with
    | ok s =>
        rw [hsum] at h
        rw [← h]
        simp [analyze_document, hsum, isOkE]
    | error e =>
        rw [hsum] at h
        rw [← h]
        simp [analyze_document, hsum, isOkE]
  · obtain ⟨os, oq⟩ := st
    cases oq with
    | none => rfl
    | some f => cases hm : f q c <;> simp [answer_question, isOkE, hm]

/-- C8 counterexample: the ellipsis appended by the no-model summarizer
fallback becomes an extra word, so the summary of "a b " has word count 3
while the original has word count 2. -/
theorem summary_expands_word_count_counterexample :
    (summarize_text stNoModels envFallback "a b ".data 150 30).1 = .ok "a b ...".data ∧
    (basic_statistics envFallback "a b ...".data).word_count = 3 ∧
    (basic_statistics envFallback "a b ".data).word_count = 2 ∧
    ¬((basic_statistics envFallback "a b ...".data).word_count ≤
        (basic_statistics envFallback "a b ".data).word_count) := by
  exact ⟨rfl, rfl, rfl, by decide⟩

/-- C8 amended: in the fully degraded environment (no NLTK, no summarizer
model) the summary is the 200-character truncation with "..." appended, and
feeding it back into basic_statistics yields a word count at most one larger
than the original word count (the appended ellipsis can contribute at most
one extra countable token). -/
theorem summary_word_count_le_original_succ (env : NltkEnv) (st : AIState)
    (text s : List Char) (h1 : env.available = false) (h2 : st.summarizer = none)
    (hs : (summarize_text st env text 150 30).1 = .ok s) :
    (basic_statistics env s).word_count ≤ (basic_statistics env text).word_count + 1 := by
  have h3 := hs.symm.trans (summarizeFallbackEq st env text 150 30 h1 h2)
  have hseq : s = text.take 200 ++ "...".data := Except.ok.inj h3
  subst hseq
  by_cases ht : text = []
  · subst ht
    have hdots : (basic_statistics env ([] : List Char)).word_count = 0 := by
      simp [basic_statistics]
    rw [hdots]
    rw [wordCountFallback env h1 (([] : List Char).take 200 ++ "...".data) (by decide)]
    decide
  · rw [wordCountFallback env h1 (text.take 200 ++ "...".data) (by simp),
        wordCountFallback env h1 text ht]
    exact fcwCleanTakeDots text

/-- C8 amended, witnessed at a concrete input. -/
theorem summary_word_count_le_original_succ_witness :
    (basic_statistics envFallback "a b ...".data).word_count ≤
      (basic_statistics envFallback "a b ".data).word_count + 1 :=
  summary_word_count_le_original_succ envFallback stNoModels "a b ".data "a b ...".data
    rfl rfl rfl

/-- C5: readability_score always lies in [0, 100]; it is exactly 0 on an
empty text and 0 whenever the computed sentence or word count is zero. -/
theorem readability_score_in_range (env : NltkEnv) (text : List Char) :
    0 ≤ readability_score env text ∧ readability_score env text ≤ 100 ∧
    readability_score env [] = 0 ∧
    ((basic_statistics env text).sentence_count = 0 ∨
      (basic_statistics env text).word_count = 0 → readability_score env text = 0) := by
  have hb : ∀ q : ℚ, 0 ≤ pyRound2 (max 0 (min 100 q)) ∧ pyRound2 (max 0 (min 100 q)) ≤ 100 := by
    intro q
    exact pyRound2Bounds (le_max_left 0 _) (max_le (by norm_num) (min_le_left 100 q))
  refine ⟨?_, ?_, rfl, ?_⟩
  · unfold readability_score
    dsimp only
    split_ifs
    all_goals first
    | exact (hb _).1
    | norm_num
  · unfold readability_score
    dsimp only
    split_ifs
    all_goals first
    | exact (hb _).2
    | norm_num
  · intro hz0
    by_cases hE : text.isEmpty
    · unfold readability_score
      rw [if_pos hE]
    · unfold readability_score
      rw [if_neg hE]
      dsimp only
      rw [if_pos hz0]

/-- C5, witnessed at a concrete input: a text whose only token is
punctuation has word count 0 and readability exactly 0. -/
theorem readability_score_in_range_witness :
    readability_score envFallback ".".data = 0 :=
  (readability_score_in_range envFallback ".".data).2.2.2 (Or.inr (by decide))

/-- C7: for non-empty input basic_statistics returns sentence_count at least
1 (defaulting to 1 when tokenization yields no sentences), both averages are
non-negative rationals, each average is 0 when its denominator is 0, and the
empty input yields the all-zero record — no division by zero is possible. -/
theorem basic_statistics_guarded (env : NltkEnv) (text : List Char) (h : text ≠ []) :
    1 ≤ (basic_statistics env text).sentence_count ∧
    0 ≤ (basic_statistics env text).average_word_length ∧
    0 ≤ (basic_statistics env text).average_sentence_length ∧
    ((basic_statistics env text).word_count = 0 →
      (basic_statistics env text).average_word_length = 0) ∧
    ((basic_statistics env text).sentence_count = 0 →
      (basic_statistics env text).average_sentence_length = 0) ∧
    basic_statistics env [] = ⟨0, 0, 0, 0, 0⟩ := by
  have htt : text.isEmpty = false := by simp [List.isEmpty_eq_false, h]
  simp only [basic_statistics, htt, Bool.false_eq_true, if_false]
  refine ⟨?_, ?_, ?_, ?_, ?_, rfl⟩
  · by_cases hp : (tokenizePair env (clean_text text)).1.isEmpty
    · simp [hp]
    · simp only [hp, Bool.false_eq_true, if_false]
      have h' : (tokenizePair env (clean_text text)).1 ≠ [] := by
        intro hnil
        rw [hnil] at hp
        exact hp rfl
      have := List.length_pos.mpr h'
      simpa using this
  · dsimp only
    split_ifs
    all_goals positivity
  · dsimp only
    split_ifs
    all_goals positivity
  · dsimp only
    intro h0
    simp [h0]
  · dsimp only
    intro h0
    split_ifs at h0 with hq
    simp [hq, h0]

/-- C7, witnessed at a concrete input. -/
theorem basic_statistics_guarded_witness :
    1 ≤ (basic_statistics envFallback "Hi.".data).sentence_count ∧
    0 ≤ (basic_statistics envFallback "Hi.".data).average_word_length ∧
    0 ≤ (basic_statistics envFallback "Hi.".data).average_sentence_length ∧
    ((basic_statistics envFallback "Hi.".data).word_count = 0 →
      (basic_statistics envFallback "Hi.".data).average_word_length = 0) ∧
    ((basic_statistics envFallback "Hi.".data).sentence_count = 0 →
      (basic_statistics envFallback "Hi.".data).average_sentence_length = 0) ∧
    basic_statistics envFallback [] = ⟨0, 0, 0, 0, 0⟩ :=
  basic_statistics_guarded envFallback "Hi.".data (by decide)

/-- C10: the character_count field of basic_statistics is the length of the
cleaned text (whitespace collapsed, disallowed characters stripped, ends
trimmed), not of the raw input, and is therefore at most the input length. -/
theorem character_count_is_cleaned_length (env : NltkEnv) (text : List Char) (h : text ≠ []) :
    (basic_statistics env text).character_count = (clean_text text).length ∧
    (basic_statistics env text).character_count ≤ text.length := by
  have htt : text.isEmpty = false := by simp [List.isEmpty_eq_false, h]
  have hc : (basic_statistics env text).character_count = (clean_text text).length := by
    simp [basic_statistics, htt]
  exact ⟨hc, hc ▸ cleanLenLe text⟩

/-- C10, witnessed at a concrete input with collapsible whitespace and a
stripped character. -/
theorem character_count_is_cleaned_length_witness :
    (basic_statistics envFallback "  a \x01  b  ".data).character_count =
      (clean_text "  a \x01  b  ".data).length ∧
    (basic_statistics envFallback "  a \x01  b  ".data).character_count ≤
      "  a \x01  b  ".data.length :=
  character_count_is_cleaned_length envFallback "  a \x01  b  ".data (by decide)

/-- C6: keyword_extraction returns at most top_n pairs sorted by
non-increasing frequency; the empty text and an empty candidate set both
yield the empty list. -/
theorem keyword_extraction_spec (env : NltkEnv) (text : List Char) (n : Nat) :
    (keyword_extraction env text n).length ≤ n ∧
    (keyword_extraction env text n).Pairwise (fun a b => b.2 ≤ a.2) ∧
    keyword_extraction env [] n = [] ∧
    (keywordCandidates env text = [] → keyword_extraction env text n = []) := by
  refine ⟨?_, ?_, rfl, ?_⟩
  · unfold keyword_extraction
    dsimp only
    split_ifs
    · simp
    · simp
    · exact List.length_take_le n _
  · unfold keyword_extraction
    dsimp only
    split_ifs
    · simp
    · simp
    · exact (sortDescSorted _).sublist (List.take_sublist n _)
  · intro hc
    simp [keyword_extraction, hc]

/-- C6, witnessed at concrete inputs: a top-5 request on a stop-word/short
text has an empty candidate set and yields the empty list. -/
theorem keyword_extraction_spec_witness :
    (keyword_extraction envFallback "at the".data 5).length ≤ 5 ∧
    keyword_extraction envFallback "at the".data 5 = [] :=
  ⟨(keyword_extraction_spec envFallback "at the".data 5).1,
   (keyword_extraction_spec envFallback "at the".data 5).2.2.2 (by decide)⟩

/-- C2 counterexample: with the PDF dependency missing, an existing
"doc.pdf" fails with exactly the same exception type (ValueError,
"Unsupported format") as an unrecognized extension — no distinct
DependencyUnavailableError exists in read_document. -/
theorem read_document_missing_dep_same_exception :
    read_document envNoDeps "doc.pdf".data =
      .error (.valueError "Unsupported format: .pdf. Available support: [\x27.txt\x27]".data) ∧
    read_document envNoDeps "doc.xyz".data =
      .error (.valueError "Unsupported format: .xyz. Available support: [\x27.txt\x27]".data) ∧
    excTag (.valueError "Unsupported format: .pdf. Available support: [\x27.txt\x27]".data) =
      excTag (.valueError "Unsupported format: .xyz. Available support: [\x27.txt\x27]".data) := by
  exact ⟨rfl, rfl, rfl⟩

/-- C2 amended: read_document distinguishes three failure kinds, not four:
FileNotFoundError when the path does not exist; one shared ValueError both
when the extension is unrecognized and when it is .pdf/.docx with its
dependency unavailable; and a generic wrapping Exception for pdf/docx
handler-internal failures. -/
theorem read_document_error_cases (env : ReaderEnv) (path : List Char) :
    (env.fsExists path = false →
      read_document env path =
        .error (.fileNotFoundError ("File not found: ".data ++ path))) ∧
    (env.fsExists path = true →
      ¬(fileExtLower path = ".pdf".data ∧ env.pdfAvailable = true) →
      ¬(fileExtLower path = ".docx".data ∧ env.docxAvailable = true) →
      fileExtLower path ≠ ".txt".data →
      read_document env path = .error (.valueError ("Unsupported format: ".data ++
        fileExtLower path ++ ". Available support: ".data ++
        pyListRepr (supported_formats env)))) ∧
    (env.fsExists path = true → fileExtLower path = ".pdf".data →
      env.pdfAvailable = true → ∀ e, env.pdfOpen path = .error e →
      read_document env path =
        .error (.genericError ("Error reading PDF: ".data ++ excMsg e))) ∧
    (env.fsExists path = true → fileExtLower path = ".docx".data →
      env.docxAvailable = true → ∀ e, env.docxOpen path = .error e →
      read_document env path =
        .error (.genericError ("Error reading DOCX: ".data ++ excMsg e))) := by
  refine ⟨?_, ?_, ?_, ?_⟩
  · intro h
    simp [read_document, h]
  · intro h h2 h3 h4
    simp [read_document, h, h2, h3, h4]
  · intro h hext hav e he
    have hnp : ¬env.pdfAvailable = false := by rw [hav]; simp
    simp [read_document, h, hext, hav, read_pdf, he, hnp]
  · intro h hext hav e he
    have hne : fileExtLower path ≠ ".pdf".data := by rw [hext]; decide
    have hnd : ¬env.docxAvailable = false := by rw [hav]; simp
    simp [read_document, h, hext, hav, read_docx, he, hne, hnd]

/-- C2 amended, witnessed across the three failure kinds at concrete
inputs. -/
theorem read_document_error_cases_witness :
    read_document envPdfFails "gone.txt".data =
      .error (.fileNotFoundError ("File not found: ".data ++ "gone.txt".data)) ∧
    read_document envNoDeps "doc.pdf".data =
      .error (.valueError ("Unsupported format: ".data ++ fileExtLower "doc.pdf".data ++
        ". Available support: ".data ++ pyListRepr (supported_formats envNoDeps))) ∧
    read_document envPdfFails "doc.pdf".data =
      .error (.genericError ("Error reading PDF: ".data ++
        excMsg (.genericError "corrupt file".data))) :=
  ⟨(read_document_error_cases envPdfFails "gone.txt".data).1 (by decide),
   (read_document_error_cases envNoDeps "doc.pdf".data).2.1 (by decide) (by decide)
     (by decide) (by decide),
   (read_document_error_cases envPdfFails "doc.pdf".data).2.2.1 (by decide) (by decide)
     rfl (.genericError "corrupt file".data) rfl⟩

